import Mathlib

/-!
Shallow embedding of the orchestration core of the DichVideo video-dubbing
frontend: the project status enumeration and forward order, the client
polling guard, the Supabase row shapes, the voice-assignment operation
`projectsApi.assignVoices`, project creation `projectsApi.create`, the
referential cascade declared by the SQL schema, the voice catalog fallback
`voicesApi.list`, and (modelled from the spec where the repository holds no
implementation) the Stage Controller transition function and the Segment
Ledger statistics maintenance.
-/

namespace DichVideo

/-- The project status enumeration, one constructor per value of the
`project_status` SQL enum and of the client `ProjectStatus` union type. -/
inductive ProjectStatus where
  | pending
  | uploading
  | diarizing
  | transcribing
  | translating
  | voice_mapping
  | dubbing
  | mixing
  | rendering
  | completed
  | failed
deriving DecidableEq, Fintype

/-- The exact string each status is persisted and transmitted as. -/
def ProjectStatus.toDbString : ProjectStatus → String
  | .pending => "pending"
  | .uploading => "uploading"
  | .diarizing => "diarizing"
  | .transcribing => "transcribing"
  | .translating => "translating"
  | .voice_mapping => "voice_mapping"
  | .dubbing => "dubbing"
  | .mixing => "mixing"
  | .rendering => "rendering"
  | .completed => "completed"
  | .failed => "failed"

/-- All eleven statuses, in declaration order. -/
def allProjectStatuses : List ProjectStatus :=
  [.pending, .uploading, .diarizing, .transcribing, .translating,
   .voice_mapping, .dubbing, .mixing, .rendering, .completed, .failed]

/-- The string members of the client-side `ProjectStatus` union type
(frontend/lib/database.types.ts, lines 9-20), in source order. -/
def tsProjectStatusStrings : List String :=
  ["pending", "uploading", "diarizing", "transcribing", "translating",
   "voice_mapping", "dubbing", "mixing", "rendering", "completed", "failed"]

/-- The labels of the persisted `project_status` SQL enum
(schema.sql, CREATE TYPE project_status), in source order. -/
def sqlProjectStatusStrings : List String :=
  ["pending", "uploading", "diarizing", "transcribing", "translating",
   "voice_mapping", "dubbing", "mixing", "rendering", "completed", "failed"]

/-- The forward order of pipeline stages, from `statusOrder` in
ProgressTracker (`failed` is deliberately outside the forward order). -/
def statusOrder : List ProjectStatus :=
  [.pending, .uploading, .diarizing, .transcribing, .translating,
   .voice_mapping, .dubbing, .mixing, .rendering, .completed]

/-- The statuses during which the project page polls for updates, from the
`processingStatuses` list in the polling `useEffect` of
frontend/app/project/[id]/page.tsx (lines 85-93). -/
def processingStatuses : List ProjectStatus :=
  [.uploading, .diarizing, .transcribing, .translating,
   .dubbing, .mixing, .rendering]

/-- The polling `useEffect` installs the interval timer exactly when the
observed status is in `processingStatuses`, and clears it otherwise. -/
def pollingActive (s : ProjectStatus) : Bool :=
  processingStatuses.contains s

/-- Terminal statuses: no further transitions. -/
def isTerminal (s : ProjectStatus) : Bool :=
  s = .completed || s = .failed

/-- The immediate successor of a status in the forward `statusOrder`. -/
def immediateSuccessor (s : ProjectStatus) : Option ProjectStatus :=
  match statusOrder.findIdx? (· = s) with
  | some i => statusOrder[i + 1]?
  | none => none

/-- A row of the `projects` table (schema.sql / database.types.ts); the
fields the orchestration core reads and writes.  `voice_mapping` is the
JSONB object, modelled as an association list from speaker label to voice
identifier in insertion order. -/
structure ProjectRow where
  id : Nat
  name : String
  original_video_url : Option String
  output_video_url : Option String
  original_language : String
  target_language : String
  num_speakers : Int
  voice_mapping : Option (List (String × String))
  status : ProjectStatus
  progress : Int
  error_message : Option String
deriving DecidableEq

/-- A row of the `speakers` table. -/
structure SpeakerRow where
  id : Nat
  project_id : Nat
  speaker_label : String
  name : Option String
  elevenlabs_voice_id : Option String
  elevenlabs_voice_name : Option String
  total_duration_ms : Int
  segment_count : Int
deriving DecidableEq

/-- A row of the `segments` table. -/
structure SegmentRow where
  id : Nat
  project_id : Nat
  speaker_id : Option Nat
  start_ms : Int
  end_ms : Int
  original_text : Option String
  translated_text : Option String
  dubbed_audio_url : Option String
  sequence : Int
deriving DecidableEq

/-- The persisted database state: the three tables. -/
structure DB where
  projects : List ProjectRow
  speakers : List SpeakerRow
  segments : List SegmentRow
deriving DecidableEq

/-- The first write of `projectsApi.assignVoices`: update `voice_mapping`
on every projects row whose id matches (`.eq("id", id)`). -/
def updateProjectVoiceMapping (db : DB) (pid : Nat) (m : List (String × String)) : DB :=
  { db with
    projects := db.projects.map fun p =>
      if p.id = pid then { p with voice_mapping := some m } else p }

/-- One iteration of the speaker-update loop of `projectsApi.assignVoices`:
set `elevenlabs_voice_id` on every speakers row matching the project id and
the speaker label. -/
def updateSpeakerVoice (db : DB) (pid : Nat) (label vid : String) : DB :=
  { db with
    speakers := db.speakers.map fun sp =>
      if sp.project_id = pid ∧ sp.speaker_label = label
      then { sp with elevenlabs_voice_id := some vid } else sp }

/-- The database states produced by the speaker-update loop, one per
processed mapping entry, in loop order. -/
def speakerUpdateStates (db : DB) (pid : Nat) : List (String × String) → List DB
  | [] => []
  | (label, vid) :: rest =>
    let db1 := updateSpeakerVoice db pid label vid
    db1 :: speakerUpdateStates db1 pid rest

/-- Every database state observable during `projectsApi.assignVoices`: the
initial state, the state after the project-level `voice_mapping` write, and
the state after each per-speaker write of the loop. -/
def assignVoicesStates (db : DB) (pid : Nat) (m : List (String × String)) : List DB :=
  let db1 := updateProjectVoiceMapping db pid m
  db :: db1 :: speakerUpdateStates db1 pid m

/-- The final database state of `projectsApi.assignVoices`: the project
`voice_mapping` write followed by one speaker write per mapping entry.  The
source performs no validation of the mapping keys and reports success
unconditionally (it returns a status object, never an error, once the
project write succeeded). -/
def assignVoices (db : DB) (pid : Nat) (m : List (String × String)) : DB :=
  m.foldl (fun d e => updateSpeakerVoice d pid e.1 e.2)
    (updateProjectVoiceMapping db pid m)

/-- Errors of the Stage Controller transition contract (spec section 7). -/
inductive TransitionError where
  | illegalTransition
  | incompleteAssignment
deriving DecidableEq

/-- Every Speaker row of the project has a non-null voice assignment. -/
def allSpeakersAssigned (pid : Nat) (speakers : List SpeakerRow) : Bool :=
  (speakers.filter fun sp => sp.project_id = pid).all
    fun sp => sp.elevenlabs_voice_id ≠ none

/-- Modelled from the spec: `requestTransition(project, targetStatus)` of
the Stage Controller, which is implemented in the external processing
server and absent from the repository sources.  Per spec section 4.1: the
request succeeds only when the target is the immediate successor of the
current status in the forward order or the target is `failed`; terminal
states admit no transition; leaving `voice_mapping` for `dubbing`
additionally requires every Speaker of the project to carry a non-null
voice assignment, else `IncompleteAssignmentError`; on success `progress`
resets to 0. -/
def requestTransition (p : ProjectRow) (speakers : List SpeakerRow)
    (target : ProjectStatus) : Except TransitionError ProjectRow :=
  if isTerminal p.status then .error .illegalTransition
  else if target = .failed then .ok { p with status := .failed, progress := 0 }
  else if immediateSuccessor p.status = some target then
    if target = .dubbing && !allSpeakersAssigned p.id speakers then
      .error .incompleteAssignment
    else .ok { p with status := target, progress := 0 }
  else .error .illegalTransition

/-- Duration of a segment in milliseconds. -/
def segDuration (s : SegmentRow) : Int :=
  s.end_ms - s.start_ms

/-- The Segment Ledger state for one project: its Speaker rows and its
Segment rows. -/
structure LedgerState where
  speakers : List SpeakerRow
  segments : List SegmentRow
deriving DecidableEq

/-- Sum of durations of the segments currently referencing speaker `sid`. -/
def sumFor (segs : List SegmentRow) (sid : Nat) : Int :=
  ((segs.filter fun s => s.speaker_id = some sid).map segDuration).sum

/-- Number of segments currently referencing speaker `sid`, as an integer
to mirror the signed `segment_count` column. -/
def countFor (segs : List SegmentRow) (sid : Nat) : Int :=
  ((segs.filter fun s => s.speaker_id = some sid).length : Int)

/-- The per-speaker statistics invariant of spec section 3:
`total_duration_ms` is the sum of durations of the segments referencing the
speaker and `segment_count` is their count. -/
def speakerInvariant (st : LedgerState) : Prop :=
  ∀ sp ∈ st.speakers,
    sp.total_duration_ms = sumFor st.segments sp.id ∧
    sp.segment_count = countFor st.segments sp.id

/-- Reassignment updates the first segment with the given id, recording the
replaced row so the speaker statistics can be adjusted incrementally. -/
def updateSegSpeaker (segId newId : Nat) :
    List SegmentRow → List SegmentRow × Option SegmentRow
  | [] => ([], none)
  | s :: rest =>
    if s.id = segId then ({ s with speaker_id := some newId } :: rest, some s)
    else ((s :: (updateSegSpeaker segId newId rest).1),
          (updateSegSpeaker segId newId rest).2)

/-- The constant-time statistics adjustment of `reassignSpeaker`: the losing
speaker is decremented and the gaining speaker incremented by the moved
segment's duration and by one segment. -/
def adjustSpeaker (oldId : Option Nat) (newId : Nat) (dur : Int)
    (sp : SpeakerRow) : SpeakerRow :=
  { sp with
    total_duration_ms := sp.total_duration_ms
      - (if oldId = some sp.id then dur else 0)
      + (if newId = sp.id then dur else 0),
    segment_count := sp.segment_count
      - (if oldId = some sp.id then 1 else 0)
      + (if newId = sp.id then 1 else 0) }

/-- Modelled from the spec: `reassignSpeaker(segment, newSpeakerId)` of the
Segment Ledger (spec section 4.3), implemented in the external processing
server and absent from the repository sources.  It updates the segment's
back-reference and incrementally adjusts the losing and gaining speakers'
`total_duration_ms` and `segment_count`; a segment id not present in the
ledger leaves the state unchanged. -/
def reassignSpeaker (st : LedgerState) (segId newId : Nat) : LedgerState :=
  match (updateSegSpeaker segId newId st.segments).2 with
  | none => st
  | some s0 =>
    { segments := (updateSegSpeaker segId newId st.segments).1,
      speakers := st.speakers.map
        (adjustSpeaker s0.speaker_id newId (segDuration s0)) }

/-- Increment a speaker's statistics by one segment of duration `dur`. -/
def bumpSpeaker (sid : Nat) (dur : Int) (speakers : List SpeakerRow) : List SpeakerRow :=
  speakers.map fun sp =>
    if sp.id = sid then
      { sp with total_duration_ms := sp.total_duration_ms + dur,
                segment_count := sp.segment_count + 1 }
    else sp

/-- Modelled from the spec: appending one segment in `appendSegments`
(spec section 4.3), implemented in the external processing server and
absent from the repository sources.  The segment is appended to the ledger
and, since the statistics are maintained incrementally, the referenced
speaker's `total_duration_ms` and `segment_count` are incremented. -/
def appendSegment (st : LedgerState) (seg : SegmentRow) : LedgerState :=
  { segments := st.segments ++ [seg],
    speakers :=
      match seg.speaker_id with
      | some sid => bumpSpeaker sid (segDuration seg) st.speakers
      | none => st.speakers }

/-- Modelled from the spec: `setTranslation(segment, text)` of the Segment
Ledger, absent from the repository sources; a field-level update of the
first segment with the given id. -/
def setTranslation (st : LedgerState) (segId : Nat) (text : String) : LedgerState :=
  { st with
    segments := st.segments.map fun s =>
      if s.id = segId then { s with translated_text := some text } else s }

/-- Modelled from the spec: `setDubbedAudio(segment, url)` of the Segment
Ledger, absent from the repository sources; a field-level update of the
first segment with the given id. -/
def setDubbedAudio (st : LedgerState) (segId : Nat) (url : String) : LedgerState :=
  { st with
    segments := st.segments.map fun s =>
      if s.id = segId then { s with dubbed_audio_url := some url } else s }

/-- The mutating Segment Ledger operations. -/
inductive LedgerOp where
  | reassign (segId newId : Nat)
  | append (seg : SegmentRow)
  | translate (segId : Nat) (text : String)
  | dubAudio (segId : Nat) (url : String)
deriving DecidableEq

/-- Apply one ledger operation. -/
def applyOp (st : LedgerState) : LedgerOp → LedgerState
  | .reassign segId newId => reassignSpeaker st segId newId
  | .append seg => appendSegment st seg
  | .translate segId text => setTranslation st segId text
  | .dubAudio segId url => setDubbedAudio st segId url

/-- Apply a sequence of ledger operations in order. -/
def applyOps (st : LedgerState) (ops : List LedgerOp) : LedgerState :=
  ops.foldl applyOp st

/-- Deleting a projects row, with the referential actions declared by the
schema: `speakers.project_id` and `segments.project_id` both carry
`ON DELETE CASCADE`, so every Speaker and Segment owned by the project is
deleted with it (`projectsApi.delete` relies on exactly this cascade). -/
def deleteProject (db : DB) (pid : Nat) : DB :=
  { projects := db.projects.filter fun p => p.id ≠ pid,
    speakers := db.speakers.filter fun sp => sp.project_id ≠ pid,
    segments := db.segments.filter fun s => s.project_id ≠ pid }

/-- Deleting a speakers row, with the referential action declared by the
schema: `segments.speaker_id` carries `ON DELETE SET NULL`, so every
segment referencing the speaker keeps existing with its `speaker_id`
nulled and all other fields unchanged. -/
def deleteSpeaker (db : DB) (sid : Nat) : DB :=
  { db with
    speakers := db.speakers.filter fun sp => sp.id ≠ sid,
    segments := db.segments.map fun s =>
      if s.speaker_id = some sid then { s with speaker_id := none } else s }

/-- The creation input of `projectsApi.create` (the video file itself only
matters through the upload outcome). -/
structure CreateInput where
  name : String
  original_language : String
  target_language : String
  num_speakers : Int
deriving DecidableEq

/-- The outcomes of the fallible steps inside `projectsApi.create`: whether
the initial insert fails, the result of `uploadVideo` (a public URL or a
thrown error), and whether the follow-up update fails. -/
structure CreateEnv where
  insertFails : Bool
  uploadResult : Except String String
  updateFails : Bool

/-- A fresh row id, larger than every existing projects row id. -/
def freshProjectId (db : DB) : Nat :=
  (db.projects.map fun p => p.id).foldr max 0 + 1

/-- The projects row inserted by step 1 of `projectsApi.create`: the given
name, languages and speaker count, `status := uploading`, every other
column at its schema default. -/
def newProjectRow (db : DB) (input : CreateInput) : ProjectRow :=
  { id := freshProjectId db
    name := input.name
    original_video_url := none
    output_video_url := none
    original_language := input.original_language
    target_language := input.target_language
    num_speakers := input.num_speakers
    voice_mapping := none
    status := .uploading
    progress := 0
    error_message := none }

/-- `projectsApi.create`: insert the project with `status = uploading`,
upload the video, then update the row with the video URL and
`status = pending`; on any error after the insert, delete the inserted row
and re-throw.  Returns the resulting database and either the updated row or
the propagated error. -/
def create (db : DB) (input : CreateInput) (env : CreateEnv) :
    DB × Except String ProjectRow :=
  if env.insertFails then (db, .error "insert failed")
  else
    let p := newProjectRow db input
    let db1 : DB := { db with projects := db.projects ++ [p] }
    match env.uploadResult with
    | .error e =>
      ({ db1 with projects := db1.projects.filter fun q => q.id ≠ p.id }, .error e)
    | .ok url =>
      if env.updateFails then
        ({ db1 with projects := db1.projects.filter fun q => q.id ≠ p.id },
         .error "update failed")
      else
        let p1 := { p with original_video_url := some url,
                           status := ProjectStatus.pending }
        ({ db1 with projects := db1.projects.map fun q => if q.id = p.id then p1 else q },
         .ok p1)

/-- A voice of the external catalog, as returned by `voicesApi.list`. -/
structure Voice where
  voice_id : String
  name : String
  category : String
  labels : List (String × String)
deriving DecidableEq

/-- The hardcoded fallback voice list of `voicesApi.list`. -/
def defaultVoices : List Voice :=
  [{ voice_id := "21m00Tcm4TlvDq8ikWAM", name := "Rachel", category := "premade",
     labels := [("gender", "female")] },
   { voice_id := "AZnzlk1XvdvUeBnXmlld", name := "Domi", category := "premade",
     labels := [("gender", "female")] },
   { voice_id := "EXAVITQu4vr4xnSDxMaL", name := "Bella", category := "premade",
     labels := [("gender", "female")] },
   { voice_id := "ErXwobaYiN019PkySvjV", name := "Antoni", category := "premade",
     labels := [("gender", "male")] },
   { voice_id := "MF3mGyEYCl7XYWbV9V6O", name := "Elli", category := "premade",
     labels := [("gender", "female")] },
   { voice_id := "TxGEqnHWrfWFTfGW9XjX", name := "Josh", category := "premade",
     labels := [("gender", "male")] },
   { voice_id := "VR6AewLTigWG4xSOukaG", name := "Arnold", category := "premade",
     labels := [("gender", "male")] },
   { voice_id := "pNInz6obpgDQGcFmaJgB", name := "Adam", category := "premade",
     labels := [("gender", "male")] },
   { voice_id := "yoZ06aMxZJJ28mfd3POQ", name := "Sam", category := "premade",
     labels := [("gender", "male")] }]

/-- The observable outcome of the `fetch` to the processing server inside
`voicesApi.list`: a network error (the fetch threw) or a response with its
`ok` flag and, when ok, the decoded voice list of its body. -/
inductive FetchOutcome where
  | networkError
  | response (ok : Bool) (voices : List Voice)
deriving DecidableEq

/-- `voicesApi.list`: return the server's list verbatim when the response
is ok; fall back to `defaultVoices` when the fetch threw or the response is
not ok. -/
def voicesList (outcome : FetchOutcome) : List Voice :=
  match outcome with
  | .response true vs => vs
  | .response false _ => defaultVoices
  | .networkError => defaultVoices

/-- A concrete project sitting in the `voice_mapping` stage, used as a
counterexample and witness input. -/
def cexProject : ProjectRow :=
  { id := 1
    name := "clip"
    original_video_url := some "vid"
    output_video_url := none
    original_language := "en"
    target_language := "vi"
    num_speakers := 2
    voice_mapping := none
    status := .voice_mapping
    progress := 50
    error_message := none }

/-- A concrete speaker of `cexProject` without a voice assignment. -/
def cexSpeaker : SpeakerRow :=
  { id := 10
    project_id := 1
    speaker_label := "spk0"
    name := none
    elevenlabs_voice_id := none
    elevenlabs_voice_name := none
    total_duration_ms := 0
    segment_count := 0 }

/-- A second concrete speaker of `cexProject` without a voice assignment. -/
def cexSpeaker1 : SpeakerRow :=
  { cexSpeaker with id := 11, speaker_label := "spk1" }

/-- A concrete database: the `voice_mapping` project with its two
unassigned speakers. -/
def dbEx : DB :=
  { projects := [cexProject], speakers := [cexSpeaker, cexSpeaker1], segments := [] }

/-- A concrete voice mapping covering both speakers of `dbEx`. -/
def mEx : List (String × String) :=
  [("spk0", "v1"), ("spk1", "v2")]

/-- A concrete creation input. -/
def inputEx : CreateInput :=
  { name := "clip"
    original_language := "en"
    target_language := "vi"
    num_speakers := 2 }

/-- A concrete failing environment: the insert succeeds and the video
upload throws. -/
def envFail : CreateEnv :=
  { insertFails := false
    uploadResult := Except.error "upload failed"
    updateFails := false }

/-- A concrete ledger: two speakers and one segment of 2000 ms assigned to
the first speaker, with consistent statistics. -/
def stEx : LedgerState :=
  { speakers :=
      [{ cexSpeaker with total_duration_ms := 2000, segment_count := 1 },
       cexSpeaker1],
    segments :=
      [{ id := 100
         project_id := 1
         speaker_id := some 10
         start_ms := 1000
         end_ms := 3000
         original_text := some "hello"
         translated_text := none
         dubbed_audio_url := none
         sequence := 1 }] }

/-- A concrete operation sequence: move the segment to the second speaker,
append a new segment for the first, then enrich both. -/
def opsEx : List LedgerOp :=
  [.reassign 100 11,
   .append
     { id := 101
       project_id := 1
       speaker_id := some 10
       start_ms := 4000
       end_ms := 4500
       original_text := some "bye"
       translated_text := none
       dubbed_audio_url := none
       sequence := 2 },
   .translate 100 "xin chao",
   .dubAudio 101 "dub101"]

/-- C7: the set of project status values is exactly the eleven fixed
strings, identical (including order) in the client-side union type and the
persisted SQL enum; every status is representable, distinct statuses map to
distinct strings, and no string outside the eleven is the image of a
status. -/
theorem projectStatus_enum_exact :
    tsProjectStatusStrings = sqlProjectStatusStrings ∧
    allProjectStatuses.map ProjectStatus.toDbString = tsProjectStatusStrings ∧
    (∀ s : ProjectStatus, s ∈ allProjectStatuses) ∧
    tsProjectStatusStrings.Nodup ∧
    tsProjectStatusStrings.length = 11 ∧
    Function.Injective ProjectStatus.toDbString := by
  refine ⟨rfl, rfl, ?_, ?_, rfl, ?_⟩
  · decide
  · decide
  · intro a b h
    revert h
    revert a b
    decide

/-- C6 counterexample: `voice_mapping` is non-terminal and distinct from
`pending`, yet the polling effect of the project page does not poll in it:
`processingStatuses` omits `voice_mapping`. -/
theorem polling_voice_mapping_cex :
    pollingActive ProjectStatus.voice_mapping = false ∧
    isTerminal ProjectStatus.voice_mapping = false ∧
    ProjectStatus.voice_mapping ≠ ProjectStatus.pending := by
  decide

/-- C6 amended: client-side polling is active exactly while the status is
non-terminal, not `pending`, and not `voice_mapping`. -/
theorem pollingActive_iff :
    ∀ s : ProjectStatus,
      pollingActive s = true ↔
        isTerminal s = false ∧ s ≠ ProjectStatus.pending ∧
          s ≠ ProjectStatus.voice_mapping := by
  decide

/-- C10 counterexample: when the processing server responds ok with an
empty voice list, `voicesApi.list` returns that empty list, so the returned
list is not always non-empty. -/
theorem voicesList_empty_cex :
    voicesList (FetchOutcome.response true []) = [] := by
  rfl

/-- C10 amended: `voicesApi.list` returns the server's list verbatim on an
ok response (which may be empty) and the hardcoded fallback of nine default
voices — a non-empty list — on a network error or a non-ok response. -/
theorem voicesList_fallback :
    (∀ vs : List Voice, voicesList (FetchOutcome.response true vs) = vs) ∧
    (∀ vs : List Voice, voicesList (FetchOutcome.response false vs) = defaultVoices) ∧
    voicesList FetchOutcome.networkError = defaultVoices ∧
    defaultVoices.length = 9 ∧
    defaultVoices ≠ [] := by
  refine ⟨fun vs => rfl, fun vs => rfl, rfl, rfl, ?_⟩
  decide

/-- C8: deleting a Project deletes every Speaker and every Segment owned by
it (the declared `ON DELETE CASCADE`), and deleting a Speaker keeps every
Segment, nulling `speaker_id` exactly on the segments that referenced the
deleted speaker while leaving every other field unchanged (the declared
`ON DELETE SET NULL`). -/
theorem cascade_delete_correct (db : DB) (pid sid : Nat) :
    (∀ p ∈ (deleteProject db pid).projects, p.id ≠ pid) ∧
    (∀ sp ∈ (deleteProject db pid).speakers, sp.project_id ≠ pid) ∧
    (∀ s ∈ (deleteProject db pid).segments, s.project_id ≠ pid) ∧
    (deleteSpeaker db sid).segments.length = db.segments.length ∧
    (∀ i, (hi : i < db.segments.length) →
      ∃ hj : i < (deleteSpeaker db sid).segments.length,
        ((deleteSpeaker db sid).segments.get ⟨i, hj⟩).speaker_id =
          (if (db.segments.get ⟨i, hi⟩).speaker_id = some sid then none
           else (db.segments.get ⟨i, hi⟩).speaker_id) ∧
        ((deleteSpeaker db sid).segments.get ⟨i, hj⟩).id =
          (db.segments.get ⟨i, hi⟩).id ∧
        ((deleteSpeaker db sid).segments.get ⟨i, hj⟩).project_id =
          (db.segments.get ⟨i, hi⟩).project_id ∧
        ((deleteSpeaker db sid).segments.get ⟨i, hj⟩).start_ms =
          (db.segments.get ⟨i, hi⟩).start_ms ∧
        ((deleteSpeaker db sid).segments.get ⟨i, hj⟩).end_ms =
          (db.segments.get ⟨i, hi⟩).end_ms ∧
        ((deleteSpeaker db sid).segments.get ⟨i, hj⟩).original_text =
          (db.segments.get ⟨i, hi⟩).original_text ∧
        ((deleteSpeaker db sid).segments.get ⟨i, hj⟩).translated_text =
          (db.segments.get ⟨i, hi⟩).translated_text ∧
        ((deleteSpeaker db sid).segments.get ⟨i, hj⟩).dubbed_audio_url =
          (db.segments.get ⟨i, hi⟩).dubbed_audio_url ∧
        ((deleteSpeaker db sid).segments.get ⟨i, hj⟩).sequence =
          (db.segments.get ⟨i, hi⟩).sequence) := by
  refine ⟨?_, ?_, ?_, ?_, ?_⟩
  · intro p hp
    simp only [deleteProject, List.mem_filter, decide_eq_true_eq] at hp
    exact hp.2
  · intro sp hsp
    simp only [deleteProject, List.mem_filter, decide_eq_true_eq] at hsp
    exact hsp.2
  · intro s hs
    simp only [deleteProject, List.mem_filter, decide_eq_true_eq] at hs
    exact hs.2
  · simp [deleteSpeaker]
  · intro i hi
    have hj : i < (deleteSpeaker db sid).segments.length := by
      simpa [deleteSpeaker] using hi
    refine ⟨hj, ?_⟩
    have hget : (deleteSpeaker db sid).segments.get ⟨i, hj⟩ =
        (if (db.segments.get ⟨i, hi⟩).speaker_id = some sid
         then { db.segments.get ⟨i, hi⟩ with speaker_id := none }
         else db.segments.get ⟨i, hi⟩) := by
      simp [deleteSpeaker, List.getElem_map]
    simp only [List.get_eq_getElem] at hget ⊢
    rw [hget]
    by_cases hc : db.segments[i].speaker_id = some sid <;> simp [hc]

theorem allSpeakersAssigned_iff (pid : Nat) (sp : List SpeakerRow) :
    allSpeakersAssigned pid sp = true ↔
      ∀ s ∈ sp, s.project_id = pid → s.elevenlabs_voice_id ≠ none := by
  simp only [allSpeakersAssigned, List.all_eq_true, List.mem_filter,
    decide_eq_true_eq, and_imp]

theorem allSpeakersAssigned_false_iff (pid : Nat) (sp : List SpeakerRow) :
    allSpeakersAssigned pid sp = false ↔
      ∃ s ∈ sp, s.project_id = pid ∧ s.elevenlabs_voice_id = none := by
  rw [← Bool.not_eq_true, allSpeakersAssigned_iff]
  push_neg
  constructor
  · rintro ⟨s, hs, hpid, hnone⟩
    exact ⟨s, hs, hpid, hnone⟩
  · rintro ⟨s, hs, hpid, hnone⟩
    exact ⟨s, hs, hpid, hnone⟩

/-- C2 counterexample: a project in `voice_mapping` with one registered
speaker lacking a voice assignment; `dubbing` is the immediate successor
and the status is non-terminal, yet the transition request does not
succeed — it fails with `IncompleteAssignmentError` — so succeeding is not
equivalent to the target being the successor or `failed`. -/
theorem requestTransition_iff_cex :
    immediateSuccessor cexProject.status = some ProjectStatus.dubbing ∧
    isTerminal cexProject.status = false ∧
    requestTransition cexProject [cexSpeaker] ProjectStatus.dubbing =
      Except.error TransitionError.incompleteAssignment := by
  refine ⟨by decide, by decide, ?_⟩
  rfl

/-- C2 amended: from a terminal status every transition request fails with
`IllegalTransitionError`; from a non-terminal status the request succeeds
exactly when the target is `failed`, or is the immediate successor and — in
the single case of leaving `voice_mapping` for `dubbing` — every Speaker of
the project carries a voice assignment; every target that is neither the
successor nor `failed` fails with `IllegalTransitionError`. -/
theorem requestTransition_succeeds_iff (p : ProjectRow) (sp : List SpeakerRow)
    (X : ProjectStatus) :
    (isTerminal p.status = true →
      requestTransition p sp X = Except.error TransitionError.illegalTransition) ∧
    (isTerminal p.status = false →
      ((∃ q, requestTransition p sp X = Except.ok q) ↔
        (X = ProjectStatus.failed ∨
          (immediateSuccessor p.status = some X ∧
            (X = ProjectStatus.dubbing → allSpeakersAssigned p.id sp = true)))) ∧
      (X ≠ ProjectStatus.failed → immediateSuccessor p.status ≠ some X →
        requestTransition p sp X = Except.error TransitionError.illegalTransition)) := by
  constructor
  · intro h
    simp [requestTransition, h]
  · intro h
    constructor
    · unfold requestTransition
      rw [h]
      by_cases hX : X = ProjectStatus.failed
      · simp [hX]
      · by_cases hsucc : immediateSuccessor p.status = some X
        · simp only [hX, hsucc, Bool.false_eq_true, if_false, if_true]
          by_cases hd : X = ProjectStatus.dubbing
          · subst hd
            by_cases ha : allSpeakersAssigned p.id sp = true
            · simp [ha, hX]
            · simp only [Bool.not_eq_true] at ha
              simp [ha, hX]
          · simp [hd, hX, hsucc]
        · simp [hX, hsucc]
    · intro hX hsucc
      simp [requestTransition, h, hX, hsucc]

/-- C3: for a project in `voice_mapping`, requesting the transition to
`dubbing` fails with `IncompleteAssignmentError` exactly when some Speaker
of the project has a null voice assignment, and succeeds (moving the
project to `dubbing` with `progress` reset) exactly when every Speaker of
the project has a non-null voice assignment. -/
theorem requestTransition_dubbing_gate (p : ProjectRow) (sp : List SpeakerRow)
    (h : p.status = ProjectStatus.voice_mapping) :
    (requestTransition p sp ProjectStatus.dubbing =
        Except.error TransitionError.incompleteAssignment ↔
      ∃ s ∈ sp, s.project_id = p.id ∧ s.elevenlabs_voice_id = none) ∧
    (requestTransition p sp ProjectStatus.dubbing =
        Except.ok { p with status := ProjectStatus.dubbing, progress := 0 } ↔
      ∀ s ∈ sp, s.project_id = p.id → s.elevenlabs_voice_id ≠ none) := by
  have hterm : isTerminal p.status = false := by rw [h]; decide
  have hsucc : immediateSuccessor p.status = some ProjectStatus.dubbing := by
    rw [h]; decide
  by_cases ha : allSpeakersAssigned p.id sp = true
  · have hok : requestTransition p sp ProjectStatus.dubbing =
        Except.ok { p with status := ProjectStatus.dubbing, progress := 0 } := by
      simp [requestTransition, hterm, hsucc, ha]
    rw [hok]
    constructor
    · constructor
      · intro hcontra
        exact Except.noConfusion hcontra
      · intro hex
        obtain ⟨s, hs, hpid, hnone⟩ := hex
        exact absurd hnone ((allSpeakersAssigned_iff p.id sp).mp ha s hs hpid)
    · exact ⟨fun _ => (allSpeakersAssigned_iff p.id sp).mp ha, fun _ => rfl⟩
  · rw [Bool.not_eq_true] at ha
    have herr : requestTransition p sp ProjectStatus.dubbing =
        Except.error TransitionError.incompleteAssignment := by
      simp [requestTransition, hterm, hsucc, ha]
    rw [herr]
    have hex := (allSpeakersAssigned_false_iff p.id sp).mp ha
    constructor
    · exact ⟨fun _ => hex, fun _ => rfl⟩
    · constructor
      · intro hcontra
        exact Except.noConfusion hcontra
      · intro hall
        obtain ⟨s, hs, hpid, hnone⟩ := hex
        exact absurd hnone (hall s hs hpid)

/-- C3 witness: the concrete `voice_mapping` project with its unassigned
speaker is refused the transition to `dubbing` with
`IncompleteAssignmentError`. -/
theorem requestTransition_dubbing_gate_witness :
    requestTransition cexProject [cexSpeaker] ProjectStatus.dubbing =
      Except.error TransitionError.incompleteAssignment := by
  have h := requestTransition_dubbing_gate cexProject [cexSpeaker] rfl
  exact h.1.mpr ⟨cexSpeaker, by decide, by decide, rfl⟩

theorem updateProjectVoiceMapping_sets (db : DB) (pid : Nat)
    (m : List (String × String)) :
    ∀ p ∈ (updateProjectVoiceMapping db pid m).projects,
      p.id = pid → p.voice_mapping = some m := by
  intro q hq hid
  simp only [updateProjectVoiceMapping, List.mem_map] at hq
  obtain ⟨p0, hp0, heq⟩ := hq
  by_cases hp : p0.id = pid
  · rw [← heq]
    simp [hp]
  · rw [← heq] at hid ⊢
    simp only [if_neg hp] at hid ⊢
    exact absurd hid hp

theorem foldl_speaker_projects (pid : Nat) (m : List (String × String)) :
    ∀ d : DB,
      (m.foldl (fun a e => updateSpeakerVoice a pid e.1 e.2) d).projects =
        d.projects := by
  induction m with
  | nil => intro d; rfl
  | cons e rest ih =>
    intro d
    rw [List.foldl_cons, ih]
    rfl

theorem foldl_speaker_mem (pid : Nat) (m : List (String × String)) :
    ∀ d : DB, ∀ sp ∈ d.speakers,
      (∀ e ∈ m, ¬(sp.project_id = pid ∧ sp.speaker_label = e.1)) →
      sp ∈ (m.foldl (fun a e => updateSpeakerVoice a pid e.1 e.2) d).speakers := by
  induction m with
  | nil => intro d sp hsp _; exact hsp
  | cons e rest ih =>
    intro d sp hsp hunt
    rw [List.foldl_cons]
    refine ih _ sp ?_ ?_
    · simp only [updateSpeakerVoice, List.mem_map]
      refine ⟨sp, hsp, ?_⟩
      rw [if_neg (hunt e (List.mem_cons_self e rest))]
    · intro e2 he2
      exact hunt e2 (List.mem_cons_of_mem e he2)

theorem speakerUpdateStates_getLast (pid : Nat) (m : List (String × String)) :
    ∀ d : DB,
      (d :: speakerUpdateStates d pid m).getLast? =
        some (m.foldl (fun a e => updateSpeakerVoice a pid e.1 e.2) d) := by
  induction m with
  | nil => intro d; rfl
  | cons e rest ih =>
    intro d
    show (d :: updateSpeakerVoice d pid e.1 e.2 ::
      speakerUpdateStates (updateSpeakerVoice d pid e.1 e.2) pid rest).getLast? = _
    rw [List.getLast?_cons_cons]
    exact ih (updateSpeakerVoice d pid e.1 e.2)

/-- C1 counterexample: running `assignVoices` on a project with two
unassigned speakers, an intermediate database state is observable in which
the project's `voice_mapping` is fully updated while a speaker still has no
voice assigned — the update is not atomic. -/
theorem assignVoices_atomicity_cex :
    ∃ st ∈ assignVoicesStates dbEx 1 mEx,
      (∀ p ∈ st.projects, p.voice_mapping = some mEx) ∧
      ∃ sp ∈ st.speakers, sp.elevenlabs_voice_id = none := by
  decide

/-- C1 amended: `assignVoices` is sequential, not atomic: it writes the
project-level `voice_mapping` first and then updates each mapped speaker
one write at a time; the state right after the project-level write — with
every speaker row still unchanged — is observable, and the final observable
state is the fully applied `assignVoices` result. -/
theorem assignVoices_sequential (db : DB) (pid : Nat) (m : List (String × String)) :
    assignVoicesStates db pid m =
      db :: updateProjectVoiceMapping db pid m ::
        speakerUpdateStates (updateProjectVoiceMapping db pid m) pid m ∧
    (updateProjectVoiceMapping db pid m).speakers = db.speakers ∧
    (updateProjectVoiceMapping db pid m).segments = db.segments ∧
    (∀ p ∈ (updateProjectVoiceMapping db pid m).projects,
      p.id = pid → p.voice_mapping = some m) ∧
    (assignVoicesStates db pid m).getLast? = some (assignVoices db pid m) := by
  refine ⟨rfl, rfl, rfl, updateProjectVoiceMapping_sets db pid m, ?_⟩
  show (db :: updateProjectVoiceMapping db pid m ::
    speakerUpdateStates (updateProjectVoiceMapping db pid m) pid m).getLast? = _
  rw [List.getLast?_cons_cons]
  exact speakerUpdateStates_getLast pid m (updateProjectVoiceMapping db pid m)

/-- C4 counterexample: `assignVoices` with a mapping keyed by a label that
matches no speaker of the project does not fail — it writes the unknown
label into the project's `voice_mapping`. -/
theorem assignVoices_unknown_label_cex :
    (∀ sp ∈ dbEx.speakers, sp.speaker_label ≠ "spkX") ∧
    assignVoices dbEx 1 [("spkX", "v9")] ≠ dbEx ∧
    ∀ p ∈ (assignVoices dbEx 1 [("spkX", "v9")]).projects,
      p.voice_mapping = some [("spkX", "v9")] := by
  decide

/-- C4 amended: `assignVoices` performs no validation of the mapping keys:
whatever the keys, the project row receives the whole mapping as its
`voice_mapping`, and every speaker row matched by no key — in particular
every speaker when all keys are unknown labels — is left unchanged. -/
theorem assignVoices_no_validation (db : DB) (pid : Nat)
    (m : List (String × String)) :
    (∀ p ∈ (assignVoices db pid m).projects,
      p.id = pid → p.voice_mapping = some m) ∧
    (∀ sp ∈ db.speakers,
      (∀ e ∈ m, ¬(sp.project_id = pid ∧ sp.speaker_label = e.1)) →
      sp ∈ (assignVoices db pid m).speakers) := by
  constructor
  · intro q hq hid
    rw [assignVoices, foldl_speaker_projects pid m] at hq
    exact updateProjectVoiceMapping_sets db pid m q hq hid
  · intro sp hsp hunt
    rw [assignVoices]
    exact foldl_speaker_mem pid m (updateProjectVoiceMapping db pid m) sp hsp hunt

theorem le_foldr_max (l : List Nat) (x : Nat) (hx : x ∈ l) :
    x ≤ l.foldr max 0 := by
  induction l with
  | nil => cases hx
  | cons a rest ih =>
    rcases List.mem_cons.mp hx with h | h
    · subst h
      exact le_max_left x (rest.foldr max 0)
    · exact le_trans (ih h) (le_max_right a (rest.foldr max 0))

theorem freshProjectId_not_mem (db : DB) :
    ∀ p ∈ db.projects, p.id ≠ freshProjectId db := by
  intro p hp
  have hle : p.id ≤ (db.projects.map fun q => q.id).foldr max 0 :=
    le_foldr_max _ p.id (List.mem_map_of_mem (fun q => q.id) hp)
  unfold freshProjectId
  omega

theorem filter_ne_fresh (db : DB) :
    db.projects.filter (fun q => q.id ≠ freshProjectId db) = db.projects := by
  rw [List.filter_eq_self]
  intro p hp
  exact decide_eq_true (freshProjectId_not_mem db p hp)

/-- C9: `projectsApi.create` is atomic with respect to failure: with the
insert succeeding, if the video upload throws or the follow-up update
fails, the inserted row is deleted before the error propagates, leaving the
database exactly as before — no project row remains in the `uploading`
state; when every step succeeds, the returned row carries the uploaded
video URL and status `pending`, and it is stored in the database. -/
theorem create_atomic (db : DB) (input : CreateInput) (env : CreateEnv)
    (hins : env.insertFails = false) :
    (∀ e, env.uploadResult = Except.error e →
      create db input env = (db, Except.error e)) ∧
    (env.updateFails = true → ∀ url, env.uploadResult = Except.ok url →
      create db input env = (db, Except.error "update failed")) ∧
    (env.updateFails = false → ∀ url, env.uploadResult = Except.ok url →
      ∃ p1, (create db input env).2 = Except.ok p1 ∧
        p1.original_video_url = some url ∧
        p1.status = ProjectStatus.pending ∧
        p1 ∈ (create db input env).1.projects) := by
  have hclean : (db.projects ++ [newProjectRow db input]).filter
      (fun q => q.id ≠ (newProjectRow db input).id) = db.projects := by
    rw [List.filter_append]
    have h1 : db.projects.filter (fun q => q.id ≠ (newProjectRow db input).id) =
        db.projects := filter_ne_fresh db
    have h2 : [newProjectRow db input].filter
        (fun q => q.id ≠ (newProjectRow db input).id) = [] := by
      simp
    rw [h1, h2, List.append_nil]
  refine ⟨?_, ?_, ?_⟩
  · intro e he
    simp only [create, hins, Bool.false_eq_true, if_false, he]
    rw [hclean]
  · intro hupd url hurl
    simp only [create, hins, Bool.false_eq_true, if_false, hurl, hupd, if_true]
    rw [hclean]
  · intro hupd url hurl
    simp only [create, hins, Bool.false_eq_true, if_false, hurl, hupd]
    refine ⟨_, rfl, rfl, rfl, ?_⟩
    simp only [List.mem_map]
    refine ⟨newProjectRow db input, ?_, ?_⟩
    · exact List.mem_append_right db.projects (List.mem_singleton_self _)
    · rw [if_pos rfl]

/-- C9 witness: with the upload throwing, `create` returns the database
unchanged and propagates the error. -/
theorem create_atomic_witness :
    create dbEx inputEx envFail = (dbEx, Except.error "upload failed") := by
  have h := create_atomic dbEx inputEx envFail rfl
  exact h.1 "upload failed" rfl

theorem sumFor_cons (s : SegmentRow) (rest : List SegmentRow) (i : Nat) :
    sumFor (s :: rest) i =
      (if s.speaker_id = some i then segDuration s else 0) + sumFor rest i := by
  by_cases h : s.speaker_id = some i <;>
    simp [sumFor, List.filter_cons, h]

theorem countFor_cons (s : SegmentRow) (rest : List SegmentRow) (i : Nat) :
    countFor (s :: rest) i =
      (if s.speaker_id = some i then 1 else 0) + countFor rest i := by
  by_cases h : s.speaker_id = some i
  · simp [countFor, List.filter_cons, h]
    ring
  · simp [countFor, List.filter_cons, h]

theorem sumFor_append_single (segs : List SegmentRow) (seg : SegmentRow) (i : Nat) :
    sumFor (segs ++ [seg]) i =
      sumFor segs i + (if seg.speaker_id = some i then segDuration seg else 0) := by
  by_cases h : seg.speaker_id = some i <;>
    simp [sumFor, List.filter_append, List.filter_cons, h]

theorem countFor_append_single (segs : List SegmentRow) (seg : SegmentRow) (i : Nat) :
    countFor (segs ++ [seg]) i =
      countFor segs i + (if seg.speaker_id = some i then 1 else 0) := by
  by_cases h : seg.speaker_id = some i <;>
    simp [countFor, List.filter_append, List.filter_cons, h]

theorem updateSegSpeaker_found (segId newId : Nat) :
    ∀ (segs : List SegmentRow) (s0 : SegmentRow),
      (updateSegSpeaker segId newId segs).2 = some s0 →
      ∀ i : Nat,
        sumFor (updateSegSpeaker segId newId segs).1 i =
          sumFor segs i
            - (if s0.speaker_id = some i then segDuration s0 else 0)
            + (if newId = i then segDuration s0 else 0) ∧
        countFor (updateSegSpeaker segId newId segs).1 i =
          countFor segs i
            - (if s0.speaker_id = some i then 1 else 0)
            + (if newId = i then 1 else 0) := by
  intro segs
  induction segs with
  | nil =>
    intro s0 h
    simp [updateSegSpeaker] at h
  | cons s rest ih =>
    intro s0 h i
    by_cases hs : s.id = segId
    · simp only [updateSegSpeaker, if_pos hs, Option.some.injEq] at h ⊢
      subst h
      constructor
      · rw [sumFor_cons, sumFor_cons]
        simp only [segDuration, Option.some.injEq]
        split_ifs <;> ring
      · rw [countFor_cons, countFor_cons]
        simp only [Option.some.injEq]
        split_ifs <;> ring
    · simp only [updateSegSpeaker, if_neg hs] at h ⊢
      obtain ⟨ih1, ih2⟩ := ih s0 h i
      constructor
      · rw [sumFor_cons, sumFor_cons, ih1]
        ring
      · rw [countFor_cons, countFor_cons, ih2]
        ring

theorem reassign_preserves (st : LedgerState) (segId newId : Nat)
    (h : speakerInvariant st) :
    speakerInvariant (reassignSpeaker st segId newId) := by
  cases hu : (updateSegSpeaker segId newId st.segments).2 with
  | none =>
    simp only [reassignSpeaker, hu]
    exact h
  | some s0 =>
    simp only [reassignSpeaker, hu]
    intro sp hsp
    simp only [List.mem_map] at hsp
    obtain ⟨sp0, hsp0, heq⟩ := hsp
    obtain ⟨hd, hc⟩ := h sp0 hsp0
    have hkey := updateSegSpeaker_found segId newId st.segments s0 hu sp0.id
    subst heq
    refine ⟨?_, ?_⟩
    · show sp0.total_duration_ms
          - (if s0.speaker_id = some sp0.id then segDuration s0 else 0)
          + (if newId = sp0.id then segDuration s0 else 0) =
        sumFor (updateSegSpeaker segId newId st.segments).1 sp0.id
      rw [hd, hkey.1]
    · show sp0.segment_count
          - (if s0.speaker_id = some sp0.id then 1 else 0)
          + (if newId = sp0.id then 1 else 0) =
        countFor (updateSegSpeaker segId newId st.segments).1 sp0.id
      rw [hc, hkey.2]

theorem append_preserves (st : LedgerState) (seg : SegmentRow)
    (h : speakerInvariant st) :
    speakerInvariant (appendSegment st seg) := by
  cases hsid : seg.speaker_id with
  | none =>
    intro sp hsp
    simp only [appendSegment, hsid] at hsp ⊢
    obtain ⟨hd, hc⟩ := h sp hsp
    rw [sumFor_append_single, countFor_append_single, hsid]
    constructor
    · rw [hd]
      simp
    · rw [hc]
      simp
  | some sid =>
    intro sp hsp
    simp only [appendSegment, hsid, bumpSpeaker, List.mem_map] at hsp
    obtain ⟨sp0, hsp0, heq⟩ := hsp
    obtain ⟨hd, hc⟩ := h sp0 hsp0
    subst heq
    by_cases hi : sp0.id = sid
    · simp only [if_pos hi]
      refine ⟨?_, ?_⟩
      · show sp0.total_duration_ms + segDuration seg =
          sumFor (st.segments ++ [seg]) sp0.id
        rw [sumFor_append_single, hd, hsid, if_pos (congrArg some hi.symm)]
      · show sp0.segment_count + 1 =
          countFor (st.segments ++ [seg]) sp0.id
        rw [countFor_append_single, hc, hsid, if_pos (congrArg some hi.symm)]
    · simp only [if_neg hi]
      have hne : ¬((some sid : Option Nat) = some sp0.id) := by
        simpa using fun hcontra => hi hcontra.symm
      refine ⟨?_, ?_⟩
      · show sp0.total_duration_ms = sumFor (st.segments ++ [seg]) sp0.id
        rw [sumFor_append_single, hd, hsid, if_neg hne, add_zero]
      · show sp0.segment_count = countFor (st.segments ++ [seg]) sp0.id
        rw [countFor_append_single, hc, hsid, if_neg hne, add_zero]

theorem sumFor_map_keep (f : SegmentRow → SegmentRow)
    (hs : ∀ s, (f s).speaker_id = s.speaker_id)
    (hdur : ∀ s, segDuration (f s) = segDuration s) :
    ∀ (segs : List SegmentRow) (i : Nat),
      sumFor (segs.map f) i = sumFor segs i := by
  intro segs i
  induction segs with
  | nil => rfl
  | cons s rest ih =>
    rw [List.map_cons, sumFor_cons, sumFor_cons, ih, hs, hdur]

theorem countFor_map_keep (f : SegmentRow → SegmentRow)
    (hs : ∀ s, (f s).speaker_id = s.speaker_id) :
    ∀ (segs : List SegmentRow) (i : Nat),
      countFor (segs.map f) i = countFor segs i := by
  intro segs i
  induction segs with
  | nil => rfl
  | cons s rest ih =>
    rw [List.map_cons, countFor_cons, countFor_cons, ih, hs]

theorem setTranslation_preserves (st : LedgerState) (segId : Nat) (t : String)
    (h : speakerInvariant st) :
    speakerInvariant (setTranslation st segId t) := by
  intro sp hsp
  have hsp0 : sp ∈ st.speakers := hsp
  obtain ⟨hd, hc⟩ := h sp hsp0
  have hs : ∀ s : SegmentRow,
      ((if s.id = segId then { s with translated_text := some t } else s) :
        SegmentRow).speaker_id = s.speaker_id := by
    intro s
    by_cases hi : s.id = segId <;> simp [hi]
  have hdur : ∀ s : SegmentRow,
      segDuration (if s.id = segId then { s with translated_text := some t } else s) =
        segDuration s := by
    intro s
    by_cases hi : s.id = segId <;> simp [hi, segDuration]
  refine ⟨?_, ?_⟩
  · show sp.total_duration_ms =
      sumFor (st.segments.map fun s =>
        if s.id = segId then { s with translated_text := some t } else s) sp.id
    rw [sumFor_map_keep _ hs hdur, hd]
  · show sp.segment_count =
      countFor (st.segments.map fun s =>
        if s.id = segId then { s with translated_text := some t } else s) sp.id
    rw [countFor_map_keep _ hs, hc]

theorem setDubbedAudio_preserves (st : LedgerState) (segId : Nat) (u : String)
    (h : speakerInvariant st) :
    speakerInvariant (setDubbedAudio st segId u) := by
  intro sp hsp
  have hsp0 : sp ∈ st.speakers := hsp
  obtain ⟨hd, hc⟩ := h sp hsp0
  have hs : ∀ s : SegmentRow,
      ((if s.id = segId then { s with dubbed_audio_url := some u } else s) :
        SegmentRow).speaker_id = s.speaker_id := by
    intro s
    by_cases hi : s.id = segId <;> simp [hi]
  have hdur : ∀ s : SegmentRow,
      segDuration (if s.id = segId then { s with dubbed_audio_url := some u } else s) =
        segDuration s := by
    intro s
    by_cases hi : s.id = segId <;> simp [hi, segDuration]
  refine ⟨?_, ?_⟩
  · show sp.total_duration_ms =
      sumFor (st.segments.map fun s =>
        if s.id = segId then { s with dubbed_audio_url := some u } else s) sp.id
    rw [sumFor_map_keep _ hs hdur, hd]
  · show sp.segment_count =
      countFor (st.segments.map fun s =>
        if s.id = segId then { s with dubbed_audio_url := some u } else s) sp.id
    rw [countFor_map_keep _ hs, hc]

theorem applyOp_preserves (st : LedgerState) (op : LedgerOp)
    (h : speakerInvariant st) : speakerInvariant (applyOp st op) := by
  cases op with
  | reassign a b => exact reassign_preserves st a b h
  | append seg => exact append_preserves st seg h
  | translate a t => exact setTranslation_preserves st a t h
  | dubAudio a u => exact setDubbedAudio_preserves st a u h

/-- C5: the per-speaker statistics invariant — `total_duration_ms` equals
the summed duration of the segments currently referencing the speaker and
`segment_count` equals their number — is preserved by every sequence of
Segment Ledger operations: reassignments, appends and the per-stage field
enrichments. -/
theorem speaker_stats_invariant (st : LedgerState) (ops : List LedgerOp)
    (h : speakerInvariant st) : speakerInvariant (applyOps st ops) := by
  induction ops generalizing st with
  | nil => exact h
  | cons op rest ih => exact ih (applyOp st op) (applyOp_preserves st op h)

/-- C5 witness: the concrete consistent ledger still satisfies the
invariant after a reassignment, an append and two enrichment operations. -/
theorem speaker_stats_invariant_witness :
    speakerInvariant (applyOps stEx opsEx) :=
  speaker_stats_invariant stEx opsEx (by unfold speakerInvariant; decide)

end DichVideo
